import Mathlib

/-!
Shallow embedding of the Vendatta usage-log store and analytics engine
(`UsageLogger`, `MetricsCalculator`, `UsageAnalyzer`, `BenchmarkComparator`,
`ReportGenerator` from the usage-logging module), together with theorems
settling the behavioural claims about it.

Numbers: the source operates on JavaScript numbers.  The embedding uses
exact rationals extended with the IEEE special values `NaN` and `±Infinity`
(type `JsNum` below).  Rounding is not modelled — every property considered
here is exact-arithmetic content (sums, counts, differences of equal values,
division by zero) that does not depend on rounding; division by zero and
its NaN/Infinity results, which several claims hinge on, are modelled
faithfully.  Quantities that the source only ever produces as finite values
(lengths of arrays, sums of entry fields) are typed `Nat`/`ℚ` directly.

Timestamps are ISO-8601 strings in the source.  Their numeric value
`new Date(s).getTime()` is modelled by an arbitrary valuation
`dateVal : String → ℚ` passed explicitly; the hour-of-day extraction
`parseInt(s.split('T')[1])` is modelled on the actual string.
-/

namespace Vendatta

/-- JavaScript number: an exact rational, or one of the IEEE special values
NaN, +Infinity, -Infinity.  Signed zero is not distinguished. -/
inductive JsNum where
  | num (q : ℚ)
  | nan
  | inf
  | ninf
deriving DecidableEq, Repr

namespace JsNum

/-- JavaScript subtraction on `JsNum`. -/
def sub : JsNum → JsNum → JsNum
  | num a, num b => num (a - b)
  | nan, _ => nan
  | _, nan => nan
  | inf, inf => nan
  | inf, _ => inf
  | ninf, ninf => nan
  | ninf, _ => ninf
  | num _, inf => ninf
  | num _, ninf => inf

/-- JavaScript multiplication on `JsNum`. -/
def mul : JsNum → JsNum → JsNum
  | num a, num b => num (a * b)
  | nan, _ => nan
  | _, nan => nan
  | inf, inf => inf
  | inf, ninf => ninf
  | ninf, inf => ninf
  | ninf, ninf => inf
  | inf, num b => if b = 0 then nan else if 0 < b then inf else ninf
  | num a, inf => if a = 0 then nan else if 0 < a then inf else ninf
  | ninf, num b => if b = 0 then nan else if 0 < b then ninf else inf
  | num a, ninf => if a = 0 then nan else if 0 < a then ninf else inf

/-- JavaScript division on `JsNum`: `0/0` is NaN, `x/0` is `±Infinity` for
finite nonzero `x` (signed zero ignored). -/
def div : JsNum → JsNum → JsNum
  | num a, num b =>
      if b = 0 then (if a = 0 then nan else if 0 < a then inf else ninf)
      else num (a / b)
  | nan, _ => nan
  | _, nan => nan
  | inf, inf => nan
  | inf, ninf => nan
  | ninf, inf => nan
  | ninf, ninf => nan
  | inf, num b => if 0 ≤ b then inf else ninf
  | ninf, num b => if 0 ≤ b then ninf else inf
  | num _, inf => num 0
  | num _, ninf => num 0

/-- JavaScript strict comparison `<` on `JsNum`: every comparison involving
NaN is false. -/
def lt : JsNum → JsNum → Bool
  | num a, num b => decide (a < b)
  | nan, _ => false
  | _, nan => false
  | ninf, ninf => false
  | ninf, _ => true
  | _, ninf => false
  | inf, _ => false
  | num _, inf => true

end JsNum

/-- The `type` field of an invocation: the TypeScript union
`'skill' | 'command' | 'rule'`. -/
inductive InvocationType where
  | skill
  | command
  | rule
deriving DecidableEq, Repr, Inhabited

/-- The `invocation` field of a usage-log entry. -/
structure Invocation where
  type : InvocationType
  name : String
  category : String
deriving DecidableEq, Repr, Inhabited

/-- The `context` field of a usage-log entry. -/
structure LogContext where
  task : String
  project : String
  files : List String
deriving DecidableEq, Repr, Inhabited

/-- The `outcome` field of a usage-log entry.  `duration`, `tokensUsed`
and `cost` are finite numbers in every record the system writes. -/
structure Outcome where
  success : Bool
  duration : ℚ
  tokensUsed : ℚ
  cost : ℚ
deriving DecidableEq, Repr, Inhabited

/-- The optional `metadata` field of a usage-log entry.  Error records are
abstracted to their message strings. -/
structure LogMetadata where
  model : Option String
  sessionId : Option String
  toolCalls : List String
  errors : List String
deriving DecidableEq, Repr, Inhabited

/-- One usage-log record (`UsageLog` in the source).  `timestamp` is the
ISO-8601 string stored in the record. -/
structure UsageLog where
  id : String
  timestamp : String
  agent : String
  invocation : Invocation
  context : LogContext
  outcome : Outcome
  metadata : Option LogMetadata
deriving DecidableEq, Repr, Inhabited

/-- The `metadata` object of the persisted store. -/
structure StoreMetadata where
  version : String
  lastUpdated : String
deriving DecidableEq, Repr, Inhabited

/-- The persisted collection (`UsageLogStore` in the source). -/
structure UsageLogStore where
  entries : List UsageLog
  metadata : StoreMetadata
deriving DecidableEq, Repr, Inhabited

/-- Query filters (`LogFilters` in the source).  `startTime`/`endTime` are
`Date` values, modelled as rational epoch instants.  A `none` field is an
unsupplied filter (the source also treats falsy values as unsupplied; the
claims concern the supplied/unsupplied distinction, which `Option` captures). -/
structure LogFilters where
  agent : Option String
  category : Option String
  startTime : Option ℚ
  endTime : Option ℚ
deriving DecidableEq, Repr, Inhabited

namespace UsageLogger

/-- `UsageLogger.matches` (renamed: `matches` is a Lean keyword):
sequential early-return filter checks from the source, in source order
(agent, startTime, endTime, category).
`dateVal` models `new Date(timestamp).getTime()`. -/
def matchesFilters (dateVal : String → ℚ) (entry : UsageLog) (filters : LogFilters) : Bool :=
  if filters.agent.any (fun a => entry.agent ≠ a) then false
  else if filters.startTime.any (fun t => dateVal entry.timestamp < t) then false
  else if filters.endTime.any (fun t => t < dateVal entry.timestamp) then false
  else if filters.category.any (fun c => entry.invocation.category ≠ c) then false
  else true

/-- `UsageLogger.query`: filter the stored entries by `matches`. -/
def query (dateVal : String → ℚ) (store : UsageLogStore) (filters : LogFilters) :
    List UsageLog :=
  store.entries.filter (fun entry => matchesFilters dateVal entry filters)

/-- `UsageLogger.log` followed by `save`: load the current store, overwrite
the entry's `id` with a freshly generated identifier and its `timestamp`
with the current instant, push the entry, and persist (which stamps
`metadata.lastUpdated`).  The generated id (`generateId()`, not defined in
the repository) and the two clock reads are passed as explicit values. -/
def log (store : UsageLogStore) (entry : UsageLog) (newId now savedAt : String) :
    UsageLogStore :=
  { entries := store.entries ++ [{ entry with id := newId, timestamp := now }]
    metadata := { store.metadata with lastUpdated := savedAt } }

end UsageLogger

/-- `ProductivityMetrics` from the source.  Fields that the source computes
as array lengths are typed `Nat`; fields that are sums of finite entry
fields are typed `ℚ`; fields produced by division carry the full `JsNum`
range. -/
structure ProductivityMetrics where
  totalInvocations : Nat
  skillInvocations : Nat
  commandInvocations : Nat
  ruleApplications : Nat
  averageDuration : JsNum
  totalDuration : ℚ
  successRate : JsNum
  failureRate : JsNum
  totalTokensUsed : ℚ
  totalCost : ℚ
  invocationsPerHour : JsNum
  tokensPerTask : JsNum
deriving DecidableEq, Repr

namespace MetricsCalculator

/-- Duration of `MetricsCalculator.getTimeRange`: `max − min` of the
timestamp values.  On an empty input `Math.min()`/`Math.max()` are
`±Infinity`, the `Date` constructed from them is invalid, and the
difference of the two `getTime()` results is NaN. -/
def getTimeRangeDuration (dateVal : String → ℚ) (metrics : List UsageLog) : JsNum :=
  match metrics.map (fun m => dateVal m.timestamp) with
  | [] => JsNum.nan
  | t :: ts => JsNum.num (ts.foldl max t - ts.foldl min t)

/-- `MetricsCalculator.calculateInvocationsPerHour`: entry count divided by
the timestamp span in hours. -/
def calculateInvocationsPerHour (dateVal : String → ℚ) (metrics : List UsageLog) :
    JsNum :=
  let hours := (getTimeRangeDuration dateVal metrics).div (JsNum.num 3600000)
  (JsNum.num (metrics.length : ℚ)).div hours

/-- `MetricsCalculator.calculate`.  The source computes `tokensPerTask` as
`totalTokensUsed / total` where `totalTokensUsed` is not a bound local
(only the sibling property of the object literal); the embedding uses that
sibling value — the evident intent — and the slip is recorded against the
claim about this field. -/
def calculate (dateVal : String → ℚ) (metrics : List UsageLog) : ProductivityMetrics :=
  let total := metrics.length
  let successful := metrics.filter (fun m => m.outcome.success)
  let skillInvocations := metrics.filter (fun m => m.invocation.type = InvocationType.skill)
  let commandInvocations := metrics.filter (fun m => m.invocation.type = InvocationType.command)
  let ruleApplications := metrics.filter (fun m => m.invocation.type = InvocationType.rule)
  let totalDuration : ℚ := (metrics.map (fun m => m.outcome.duration)).sum
  let totalTokensUsed : ℚ := (metrics.map (fun m => m.outcome.tokensUsed)).sum
  { totalInvocations := total
    skillInvocations := skillInvocations.length
    commandInvocations := commandInvocations.length
    ruleApplications := ruleApplications.length
    averageDuration := (JsNum.num totalDuration).div (JsNum.num (total : ℚ))
    totalDuration := totalDuration
    successRate :=
      ((JsNum.num (successful.length : ℚ)).div (JsNum.num (total : ℚ))).mul (JsNum.num 100)
    failureRate :=
      ((JsNum.num ((total : ℚ) - (successful.length : ℚ))).div
        (JsNum.num (total : ℚ))).mul (JsNum.num 100)
    totalTokensUsed := totalTokensUsed
    totalCost := (metrics.map (fun m => m.outcome.cost)).sum
    invocationsPerHour := calculateInvocationsPerHour dateVal metrics
    tokensPerTask := (JsNum.num totalTokensUsed).div (JsNum.num (total : ℚ)) }

end MetricsCalculator

/-- The `timeOfDay` union `'morning' | 'afternoon' | 'evening' | 'night'`. -/
inductive TimeOfDay where
  | morning
  | afternoon
  | evening
  | night
deriving DecidableEq, Repr

/-- `UsagePattern` from the source. -/
structure UsagePattern where
  skill : String
  frequency : Nat
  averageDuration : JsNum
  successRate : JsNum
  timeOfDay : TimeOfDay
deriving DecidableEq, Repr

/-- JavaScript `String.prototype.split` with a single-character separator,
on the character list of the string: split at every occurrence of `sep`.
The result is always nonempty (JS `split` never returns an empty array for
a nonempty separator). -/
def jsSplitChar (sep : Char) : List Char → List (List Char)
  | [] => [[]]
  | c :: rest =>
      match jsSplitChar sep rest with
      | [] => [[]]
      | g :: gs => if c = sep then [] :: g :: gs else (c :: g) :: gs

/-- JavaScript whitespace for `parseInt`'s leading-whitespace skip. -/
def jsWhitespace (c : Char) : Bool :=
  c = ' ' || c = '\t' || c = '\n' || c = '\r'

/-- JavaScript `parseInt` in base 10, on the character list of the string:
skip leading whitespace, read an optional sign and then the longest
decimal-digit run; `none` is NaN.  The `0x` hex prefix is irrelevant to
timestamp fragments and not modelled. -/
def jsParseInt (s : List Char) : Option Int :=
  let readDigits (cs : List Char) : Option Nat :=
    let ds := cs.takeWhile Char.isDigit
    if ds = [] then none
    else some (ds.foldl (fun n c => 10 * n + (c.toNat - 48)) 0)
  match s.dropWhile jsWhitespace with
  | '-' :: rest => (readDigits rest).map (fun n => -(n : Int))
  | '+' :: rest => (readDigits rest).map (fun n => (n : Int))
  | cs => (readDigits cs).map (fun n => (n : Int))

namespace UsageAnalyzer

/-- `UsageAnalyzer.getTimeOfDay`: bucket an hour-of-day. -/
def getTimeOfDay (hour : Int) : TimeOfDay :=
  if 5 ≤ hour ∧ hour < 12 then TimeOfDay.morning
  else if 12 ≤ hour ∧ hour < 17 then TimeOfDay.afternoon
  else if 17 ≤ hour ∧ hour < 21 then TimeOfDay.evening
  else TimeOfDay.night

/-- Hour extraction from the source: `parseInt(timestamp.split('T')[1])`.
With no `'T'` in the string the index is `undefined` and `parseInt`
yields NaN (`none`). -/
def hourOf (timestamp : String) : Option Int :=
  match (jsSplitChar 'T' timestamp.toList).get? 1 with
  | none => none
  | some fragment => jsParseInt fragment

/-- Time-of-day bucket of a timestamp: a NaN hour fails every range check
in `getTimeOfDay` and falls through to `night`. -/
def timeOfDayOf (timestamp : String) : TimeOfDay :=
  match hourOf timestamp with
  | none => TimeOfDay.night
  | some h => getTimeOfDay h

/-- One step of the `Map` insertion in `groupBySkill`: append the entry to
its skill's group, creating the group at the end on first sight (JS `Map`
preserves insertion order). -/
def pushEntry (groups : List (String × List UsageLog)) (skill : String)
    (m : UsageLog) : List (String × List UsageLog) :=
  match groups with
  | [] => [(skill, [m])]
  | (k, l) :: rest =>
      if k = skill then (k, l ++ [m]) :: rest else (k, l) :: pushEntry rest skill m

/-- Loop body of `groupBySkill`: skill-typed entries are pushed onto their
group, everything else is skipped. -/
def groupStep (groups : List (String × List UsageLog)) (m : UsageLog) :
    List (String × List UsageLog) :=
  if m.invocation.type = InvocationType.skill then pushEntry groups m.invocation.name m
  else groups

/-- `UsageAnalyzer.groupBySkill`: group the skill-typed entries by
`invocation.name`, in first-encounter order. -/
def groupBySkill (metrics : List UsageLog) : List (String × List UsageLog) :=
  metrics.foldl groupStep []

/-- Body of the loop in `analyzePatterns`: the pattern computed for one
skill group.  The source reads `skillMetrics[0]`; groups are nonempty by
construction, so the `headD` default is never consulted. -/
def mkPattern (skill : String) (skillMetrics : List UsageLog) : UsagePattern :=
  let frequency := skillMetrics.length
  { skill := skill
    frequency := frequency
    averageDuration :=
      (JsNum.num (skillMetrics.map (fun m => m.outcome.duration)).sum).div
        (JsNum.num (frequency : ℚ))
    successRate :=
      ((JsNum.num ((skillMetrics.filter (fun m => m.outcome.success)).length : ℚ)).div
        (JsNum.num (frequency : ℚ))).mul (JsNum.num 100)
    timeOfDay := timeOfDayOf (skillMetrics.headD default).timestamp }

/-- `Object.entries` applied to a JS `Map`: a `Map`'s entries live in
internal slots, not in own enumerable properties, so the enumeration is
always the empty array, whatever the map holds.  (Contrast
`getTopSkills`, which iterates its map correctly via
`Array.from(map.entries())`.) -/
def objectEntriesOfMap (_groups : List (String × List UsageLog)) :
    List (String × List UsageLog) := []

/-- `UsageAnalyzer.analyzePatterns` as written: the loop iterates
`Object.entries(skills)` where `skills` is the `Map` returned by
`groupBySkill`; that enumeration is always empty, so the loop body never
runs and every input yields the empty pattern list (the final
`sort((a, b) => b.frequency - a.frequency)` then sorts nothing). -/
def analyzePatterns (metrics : List UsageLog) : List UsagePattern :=
  ((objectEntriesOfMap (groupBySkill metrics)).map (fun g => mkPattern g.1 g.2)).mergeSort
    (fun a b => decide (b.frequency ≤ a.frequency))

/-- The evident intent of `analyzePatterns` — iterating the skill groups
themselves, exactly the iteration `getTopSkills` performs on its own map
via `Array.from(map.entries())`: one pattern per skill group, then the
stable descending sort by frequency.  Used to record the properties the
pattern claims hold of once the `Object.entries`-of-a-`Map` slip is
fixed; the as-written behavior is `analyzePatterns` above. -/
def analyzePatternsIntended (metrics : List UsageLog) : List UsagePattern :=
  ((groupBySkill metrics).map (fun g => mkPattern g.1 g.2)).mergeSort
    (fun a b => decide (b.frequency ≤ a.frequency))

end UsageAnalyzer

/-- The `improvements` / `percentImprovement` triple of a benchmark
comparison. -/
structure ImprovementDeltas where
  duration : JsNum
  successRate : JsNum
  tokensPerTask : JsNum
deriving DecidableEq, Repr

/-- `BenchmarkComparison` from the source. -/
structure BenchmarkComparison where
  baseline : ProductivityMetrics
  current : ProductivityMetrics
  improvements : ImprovementDeltas
  percentImprovement : ImprovementDeltas
deriving DecidableEq, Repr

namespace BenchmarkComparator

/-- `BenchmarkComparator.compare`: both windows through the metrics
calculator, raw differences, and percent improvements (the success-rate
delta is reported raw, not re-normalized). -/
def compare (dateVal : String → ℚ) (baseline current : List UsageLog) :
    BenchmarkComparison :=
  let baselineMetrics := MetricsCalculator.calculate dateVal baseline
  let currentMetrics := MetricsCalculator.calculate dateVal current
  { baseline := baselineMetrics
    current := currentMetrics
    improvements :=
      { duration := baselineMetrics.averageDuration.sub currentMetrics.averageDuration
        successRate := currentMetrics.successRate.sub baselineMetrics.successRate
        tokensPerTask := baselineMetrics.tokensPerTask.sub currentMetrics.tokensPerTask }
    percentImprovement :=
      { duration :=
          ((baselineMetrics.averageDuration.sub currentMetrics.averageDuration).div
            baselineMetrics.averageDuration).mul (JsNum.num 100)
        successRate := currentMetrics.successRate.sub baselineMetrics.successRate
        tokensPerTask :=
          ((baselineMetrics.tokensPerTask.sub currentMetrics.tokensPerTask).div
            baselineMetrics.tokensPerTask).mul (JsNum.num 100) } }

end BenchmarkComparator

/-- A textual insight from `ReportGenerator.generateInsights`, abstracted
to its kind and interpolated payload (the emoji template strings are
presentation only). -/
inductive Insight where
  | lowSuccessRate (rate : JsNum)
  | highAverageDuration (duration : JsNum)
  | lowInvocationsPerHour (rate : JsNum)
  | mostUsedSkill (skill : String) (count : Nat)
deriving DecidableEq, Repr

namespace ReportGenerator

/-- One step of the `Map` counting in `getTopSkills`. -/
def bumpCount (counts : List (String × Nat)) (skill : String) :
    List (String × Nat) :=
  match counts with
  | [] => [(skill, 1)]
  | (k, n) :: rest =>
      if k = skill then (k, n + 1) :: rest else (k, n) :: bumpCount rest skill

/-- Loop body of `getTopSkills`: skill-typed entries bump their skill's
count, everything else is skipped. -/
def countStep (counts : List (String × Nat)) (m : UsageLog) : List (String × Nat) :=
  if m.invocation.type = InvocationType.skill then bumpCount counts m.invocation.name
  else counts

/-- `ReportGenerator.getTopSkills`: per-skill invocation counts in
first-encounter order, stably sorted descending by count, first `topN`
taken (the source default for `topN` is 5). -/
def getTopSkills (metrics : List UsageLog) (topN : Nat) : List (String × Nat) :=
  ((metrics.foldl countStep []).mergeSort (fun a b => decide (b.2 ≤ a.2))).take topN

/-- `ReportGenerator.generateInsights`: the three conditional insights the
source implements, then the most-used-skill insight read from
`topSkills[0]`.  When `topSkills` is empty that read is `undefined` and
the property access `.skill` throws a TypeError, modelled as `none`. -/
def generateInsights (metrics : ProductivityMetrics)
    (topSkills : List (String × Nat)) : Option (List Insight) :=
  let insights :=
    (if metrics.successRate.lt (JsNum.num 80)
      then [Insight.lowSuccessRate metrics.successRate] else []) ++
    (if (JsNum.num 30000).lt metrics.averageDuration
      then [Insight.highAverageDuration metrics.averageDuration] else []) ++
    (if metrics.invocationsPerHour.lt (JsNum.num 5)
      then [Insight.lowInvocationsPerHour metrics.invocationsPerHour] else [])
  match topSkills.head? with
  | none => none
  | some top => some (insights ++ [Insight.mostUsedSkill top.1 top.2])

end ReportGenerator

/-- Conjunctive reading of the query filters, used to state the query
claim: an entry satisfies the filters when it meets every supplied filter
(agent equality, category equality, `startTime ≤ timestamp`,
`timestamp ≤ endTime`); unsupplied filters impose nothing. -/
def satisfiesFilters (dateVal : String → ℚ) (filters : LogFilters) (e : UsageLog) : Prop :=
  (∀ a ∈ filters.agent, e.agent = a) ∧
  (∀ t ∈ filters.startTime, t ≤ dateVal e.timestamp) ∧
  (∀ t ∈ filters.endTime, dateVal e.timestamp ≤ t) ∧
  (∀ c ∈ filters.category, e.invocation.category = c)

/-- A timestamp valuation for concrete witnesses. -/
def sampleDateVal : String → ℚ := fun s => (s.length : ℚ)

/-- A skill-typed sample entry for concrete witnesses. -/
def sampleSkillEntry : UsageLog :=
  { id := "e1"
    timestamp := "2025-01-12T08:00:00Z"
    agent := "sisyphus"
    invocation := { type := InvocationType.skill, name := "build", category := "testing" }
    context := { task := "compile", project := "demo", files := [] }
    outcome := { success := true, duration := 1000, tokensUsed := 50, cost := 1 }
    metadata := none }

/-- A command-typed sample entry for concrete witnesses. -/
def sampleCommandEntry : UsageLog :=
  { id := "e2"
    timestamp := "2025-01-12T09:00:00Z"
    agent := "oracle"
    invocation := { type := InvocationType.command, name := "run-build", category := "development" }
    context := { task := "build", project := "demo", files := [] }
    outcome := { success := true, duration := 2000, tokensUsed := 20, cost := 1 }
    metadata := none }

/-- A skill-typed entry whose duration, token and cost outcomes are all
zero: the input exhibiting the 0/0 percent-improvement fields. -/
def zeroOutcomeEntry : UsageLog :=
  { id := "e0"
    timestamp := "2025-01-12T10:00:00Z"
    agent := "sisyphus"
    invocation := { type := InvocationType.skill, name := "noop", category := "testing" }
    context := { task := "idle", project := "demo", files := [] }
    outcome := { success := true, duration := 0, tokensUsed := 0, cost := 0 }
    metadata := none }

/-- A two-entry store for concrete witnesses. -/
def sampleStore : UsageLogStore :=
  { entries := [sampleSkillEntry, sampleCommandEntry]
    metadata := { version := "1.0", lastUpdated := "2025-01-12T00:00:00Z" } }

/-- Metrics of a healthy day: 95% success, 3.5 s average duration, 12.5
invocations per hour — the profile of the module documentation's example
output. -/
def healthyMetrics : ProductivityMetrics :=
  { totalInvocations := 20
    skillInvocations := 15
    commandInvocations := 3
    ruleApplications := 2
    averageDuration := JsNum.num 3500
    totalDuration := 70000
    successRate := JsNum.num 95
    failureRate := JsNum.num 5
    totalTokensUsed := 250000
    totalCost := 1
    invocationsPerHour := JsNum.num (25 / 2)
    tokensPerTask := JsNum.num 12500 }

/-!
Helper lemmas shared by the claim theorems.
-/

theorem length_cast_ne_zero {l : List UsageLog} (h : l ≠ []) :
    ((l.length : ℚ)) ≠ 0 := by
  have : 0 < l.length := List.length_pos.mpr h
  positivity

theorem calculate_averageDuration (dateVal : String → ℚ) {metrics : List UsageLog}
    (h : metrics ≠ []) :
    (MetricsCalculator.calculate dateVal metrics).averageDuration
      = JsNum.num ((metrics.map (fun m => m.outcome.duration)).sum / (metrics.length : ℚ)) := by
  simp [MetricsCalculator.calculate, JsNum.div, length_cast_ne_zero h]

theorem calculate_successRate (dateVal : String → ℚ) {metrics : List UsageLog}
    (h : metrics ≠ []) :
    (MetricsCalculator.calculate dateVal metrics).successRate
      = JsNum.num ((((metrics.filter (fun m => m.outcome.success)).length : ℚ)
          / (metrics.length : ℚ)) * 100) := by
  simp [MetricsCalculator.calculate, JsNum.div, JsNum.mul, length_cast_ne_zero h]

theorem calculate_tokensPerTask (dateVal : String → ℚ) {metrics : List UsageLog}
    (h : metrics ≠ []) :
    (MetricsCalculator.calculate dateVal metrics).tokensPerTask
      = JsNum.num ((metrics.map (fun m => m.outcome.tokensUsed)).sum / (metrics.length : ℚ)) := by
  simp [MetricsCalculator.calculate, JsNum.div, length_cast_ne_zero h]

theorem matchesFilters_iff (dateVal : String → ℚ) (e : UsageLog) (f : LogFilters) :
    UsageLogger.matchesFilters dateVal e f = true ↔ satisfiesFilters dateVal f e := by
  obtain ⟨oa, oc, os, ot⟩ := f
  unfold UsageLogger.matchesFilters satisfiesFilters
  cases oa <;> cases oc <;> cases os <;> cases ot <;>
      simp [Option.any, not_lt]

theorem JsNum.sub_self_num (q : ℚ) :
    (JsNum.num q).sub (JsNum.num q) = JsNum.num 0 := by
  simp [JsNum.sub]

theorem length_filter_type_partition (l : List UsageLog) :
    (l.filter (fun m => m.invocation.type = InvocationType.skill)).length
      + (l.filter (fun m => m.invocation.type = InvocationType.command)).length
      + (l.filter (fun m => m.invocation.type = InvocationType.rule)).length
      = l.length := by
  induction l with
  | nil => rfl
  | cons m ms ih =>
      cases h : m.invocation.type <;> simp [List.filter_cons, h] <;> omega

theorem groupBySkill_filter_skill (metrics : List UsageLog)
    (gs : List (String × List UsageLog)) :
    metrics.foldl UsageAnalyzer.groupStep gs
      = (metrics.filter (fun m => m.invocation.type = InvocationType.skill)).foldl
          UsageAnalyzer.groupStep gs := by
  induction metrics generalizing gs with
  | nil => rfl
  | cons m ms ih =>
      by_cases h : m.invocation.type = InvocationType.skill <;>
        simp [List.filter_cons, h, UsageAnalyzer.groupStep, ih]

theorem pushEntry_size (gs : List (String × List UsageLog)) (k : String) (m : UsageLog) :
    ((UsageAnalyzer.pushEntry gs k m).map (fun g => g.2.length)).sum
      = ((gs.map (fun g => g.2.length)).sum) + 1 := by
  induction gs with
  | nil => simp [UsageAnalyzer.pushEntry]
  | cons g rest ih =>
      obtain ⟨k', l⟩ := g
      by_cases h : k' = k <;> simp [UsageAnalyzer.pushEntry, h, ih] <;> omega

theorem foldl_groupStep_size (metrics : List UsageLog)
    (gs : List (String × List UsageLog)) :
    (((metrics.foldl UsageAnalyzer.groupStep gs).map (fun g => g.2.length)).sum)
      = ((gs.map (fun g => g.2.length)).sum)
        + (metrics.filter (fun m => m.invocation.type = InvocationType.skill)).length := by
  induction metrics generalizing gs with
  | nil => simp
  | cons m ms ih =>
      by_cases h : m.invocation.type = InvocationType.skill
      · simp [List.filter_cons, h, UsageAnalyzer.groupStep, ih, pushEntry_size]
        omega
      · simp [List.filter_cons, h, UsageAnalyzer.groupStep, ih]

theorem pushEntry_groups_ne_nil (gs : List (String × List UsageLog)) (k : String)
    (m : UsageLog) (hgs : ∀ g ∈ gs, g.2 ≠ []) :
    ∀ g ∈ UsageAnalyzer.pushEntry gs k m, g.2 ≠ [] := by
  induction gs with
  | nil =>
      intro g hg
      simp [UsageAnalyzer.pushEntry] at hg
      simp [hg]
  | cons g0 rest ih =>
      obtain ⟨k', l⟩ := g0
      intro g hg
      by_cases h : k' = k
      · simp [UsageAnalyzer.pushEntry, h] at hg
        rcases hg with hg | hg
        · simp [hg]
        · exact hgs g (List.mem_cons_of_mem _ hg)
      · simp [UsageAnalyzer.pushEntry, h] at hg
        rcases hg with hg | hg
        · exact hgs g (by simp [hg])
        · exact ih (fun g' hg' => hgs g' (List.mem_cons_of_mem _ hg')) g hg

theorem foldl_groupStep_ne_nil (metrics : List UsageLog)
    (gs : List (String × List UsageLog)) (hgs : ∀ g ∈ gs, g.2 ≠ []) :
    ∀ g ∈ metrics.foldl UsageAnalyzer.groupStep gs, g.2 ≠ [] := by
  induction metrics generalizing gs with
  | nil => simpa using hgs
  | cons m ms ih =>
      intro g hg
      by_cases h : m.invocation.type = InvocationType.skill
      · exact ih _ (pushEntry_groups_ne_nil _ _ _ hgs) g
          (by simpa [UsageAnalyzer.groupStep, h] using hg)
      · exact ih _ hgs g (by simpa [UsageAnalyzer.groupStep, h] using hg)

theorem groupBySkill_ne_nil (metrics : List UsageLog) :
    ∀ g ∈ UsageAnalyzer.groupBySkill metrics, g.2 ≠ [] :=
  foldl_groupStep_ne_nil metrics [] (by simp)

theorem bumpCount_ne_nil (counts : List (String × Nat)) (k : String) :
    ReportGenerator.bumpCount counts k ≠ [] := by
  induction counts with
  | nil => simp [ReportGenerator.bumpCount]
  | cons c rest ih =>
      obtain ⟨k', n⟩ := c
      by_cases h : k' = k <;> simp [ReportGenerator.bumpCount, h]

theorem foldl_countStep_ne_nil (metrics : List UsageLog) (counts : List (String × Nat))
    (h : counts ≠ []) : metrics.foldl ReportGenerator.countStep counts ≠ [] := by
  induction metrics generalizing counts with
  | nil => simpa using h
  | cons m ms ih =>
      by_cases hm : m.invocation.type = InvocationType.skill
      · simpa [ReportGenerator.countStep, hm] using ih _ (bumpCount_ne_nil _ _)
      · simpa [ReportGenerator.countStep, hm] using ih _ h

theorem counts_ne_nil_of_skill (metrics : List UsageLog) (counts : List (String × Nat))
    (hex : ∃ e ∈ metrics, e.invocation.type = InvocationType.skill) :
    metrics.foldl ReportGenerator.countStep counts ≠ [] := by
  induction metrics generalizing counts with
  | nil =>
      obtain ⟨e, he, -⟩ := hex
      cases he
  | cons m ms ih =>
      simp only [List.foldl_cons]
      by_cases hm : m.invocation.type = InvocationType.skill
      · have hne : ReportGenerator.countStep counts m ≠ [] := by
          simp [ReportGenerator.countStep, hm, bumpCount_ne_nil]
        exact foldl_countStep_ne_nil ms _ hne
      · obtain ⟨e, he, hskill⟩ := hex
        rcases List.mem_cons.mp he with rfl | he'
        · exact absurd hskill hm
        · have hstep : ReportGenerator.countStep counts m = counts := by
            simp [ReportGenerator.countStep, hm]
          rw [hstep]
          exact ih _ ⟨e, he', hskill⟩

theorem counts_nil_of_no_skill (metrics : List UsageLog) (counts : List (String × Nat))
    (h : ∀ e ∈ metrics, e.invocation.type ≠ InvocationType.skill) :
    metrics.foldl ReportGenerator.countStep counts = counts := by
  induction metrics generalizing counts with
  | nil => rfl
  | cons m ms ih =>
      have hm := h m (by simp)
      simp only [List.foldl_cons]
      have hstep : ReportGenerator.countStep counts m = counts := by
        simp [ReportGenerator.countStep, hm]
      rw [hstep]
      exact ih _ (fun e he => h e (List.mem_cons_of_mem _ he))

/-!
Claim theorems.
-/

/-- C10: for every entry sequence (whose invocation types are, by the data
model, always one of skill/command/rule), the three per-type counts of the
metrics calculator partition the total invocation count:
`skillInvocations + commandInvocations + ruleApplications = totalInvocations`. -/
theorem calculate_counts_partition (dateVal : String → ℚ) (metrics : List UsageLog) :
    (MetricsCalculator.calculate dateVal metrics).skillInvocations
      + (MetricsCalculator.calculate dateVal metrics).commandInvocations
      + (MetricsCalculator.calculate dateVal metrics).ruleApplications
      = (MetricsCalculator.calculate dateVal metrics).totalInvocations := by
  simpa [MetricsCalculator.calculate] using length_filter_type_partition metrics

/-- C1 counterexample: on the empty entry sequence `calculate` does not
signal anything — it returns an ordinary metrics record whose ratio fields
are the NaN of `0/0`, exactly the non-finite values the claim says are
never returned. -/
theorem calculate_empty_returns_nan :
    MetricsCalculator.calculate (fun _ => 0) [] =
      { totalInvocations := 0, skillInvocations := 0, commandInvocations := 0,
        ruleApplications := 0, averageDuration := JsNum.nan, totalDuration := 0,
        successRate := JsNum.nan, failureRate := JsNum.nan, totalTokensUsed := 0,
        totalCost := 0, invocationsPerHour := JsNum.nan, tokensPerTask := JsNum.nan } := by
  simp [MetricsCalculator.calculate, MetricsCalculator.calculateInvocationsPerHour,
    MetricsCalculator.getTimeRangeDuration, JsNum.div, JsNum.mul]

/-- C1 (amended): `calculate` never signals `ComputationUndefined` — it is
a total function.  On the empty entry sequence the ratio aggregates are
the NaN of `0/0`, and on a non-empty sequence whose timestamp span is zero
`invocationsPerHour` is `+Infinity` (a division of a positive count by
zero), rather than an explicit error in either case. -/
theorem calculate_never_signals (dateVal : String → ℚ) (metrics : List UsageLog) :
    ((MetricsCalculator.calculate dateVal []).averageDuration = JsNum.nan ∧
     (MetricsCalculator.calculate dateVal []).successRate = JsNum.nan ∧
     (MetricsCalculator.calculate dateVal []).invocationsPerHour = JsNum.nan ∧
     (MetricsCalculator.calculate dateVal []).tokensPerTask = JsNum.nan) ∧
    (metrics ≠ [] →
      MetricsCalculator.getTimeRangeDuration dateVal metrics = JsNum.num 0 →
      (MetricsCalculator.calculate dateVal metrics).invocationsPerHour = JsNum.inf) := by
  constructor
  · exact ⟨rfl, rfl, rfl, rfl⟩
  · intro hne hspan
    have hq : ((metrics.length : ℚ)) ≠ 0 := length_cast_ne_zero hne
    have hpos : (0 : ℚ) < (metrics.length : ℚ) := by
      have : 0 < metrics.length := List.length_pos.mpr hne
      exact_mod_cast this
    simp [MetricsCalculator.calculate, MetricsCalculator.calculateInvocationsPerHour,
      hspan, JsNum.div, hq, hpos]

/-- C1 witness: a singleton input has timestamp span zero, and its
invocations-per-hour aggregate is `+Infinity`. -/
theorem calculate_never_signals_witness :
    (MetricsCalculator.calculate sampleDateVal [sampleSkillEntry]).invocationsPerHour
      = JsNum.inf :=
  (calculate_never_signals sampleDateVal [sampleSkillEntry]).2 (by simp)
    (by simp [MetricsCalculator.getTimeRangeDuration])

/-- C6: `tokensPerTask` of the metrics calculator on a non-empty input is
the sum of `outcome.tokensUsed` over the input divided by the number of
entries.  This is proved of the embedding's intended-binding reading of
source line 405, whose `totalTokensUsed / total` reads an identifier that
is not actually in scope there — the slip recorded against this claim. -/
theorem calculate_tokensPerTask_eq (dateVal : String → ℚ) (m : UsageLog)
    (ms : List UsageLog) :
    (MetricsCalculator.calculate dateVal (m :: ms)).tokensPerTask
      = JsNum.num (((m :: ms).map (fun e => e.outcome.tokensUsed)).sum
          / (((m :: ms).length : ℚ))) :=
  calculate_tokensPerTask dateVal (by simp)

/-- C5 counterexample: comparing the singleton zero-outcome sequence
against itself gives `percentImprovement.duration = NaN`, not zero — the
baseline average duration is `0`, so the percentage is the `0/0` division. -/
theorem compare_self_nan_counterexample :
    (BenchmarkComparator.compare (fun _ => 0) [zeroOutcomeEntry] [zeroOutcomeEntry]
      ).percentImprovement.duration = JsNum.nan ∧
    (BenchmarkComparator.compare (fun _ => 0) [zeroOutcomeEntry] [zeroOutcomeEntry]
      ).percentImprovement.duration ≠ JsNum.num 0 := by
  constructor <;>
    simp [BenchmarkComparator.compare, MetricsCalculator.calculate, JsNum.div,
      JsNum.sub, JsNum.mul, zeroOutcomeEntry]

/-- C5 (amended): comparing a non-empty sequence against itself yields
zero for every field of `improvements` and for
`percentImprovement.successRate`; `percentImprovement.duration` and
`percentImprovement.tokensPerTask` are zero provided the corresponding
baseline aggregate is nonzero (when it is zero they are the NaN of `0/0`). -/
theorem compare_self_spec (dateVal : String → ℚ) (entries : List UsageLog)
    (hne : entries ≠ []) :
    (BenchmarkComparator.compare dateVal entries entries).improvements.duration
      = JsNum.num 0 ∧
    (BenchmarkComparator.compare dateVal entries entries).improvements.successRate
      = JsNum.num 0 ∧
    (BenchmarkComparator.compare dateVal entries entries).improvements.tokensPerTask
      = JsNum.num 0 ∧
    (BenchmarkComparator.compare dateVal entries entries).percentImprovement.successRate
      = JsNum.num 0 ∧
    ((MetricsCalculator.calculate dateVal entries).averageDuration ≠ JsNum.num 0 →
      (BenchmarkComparator.compare dateVal entries entries).percentImprovement.duration
        = JsNum.num 0) ∧
    ((MetricsCalculator.calculate dateVal entries).tokensPerTask ≠ JsNum.num 0 →
      (BenchmarkComparator.compare dateVal entries entries).percentImprovement.tokensPerTask
        = JsNum.num 0) := by
  have hdur := calculate_averageDuration dateVal hne
  have hsucc := calculate_successRate dateVal hne
  have htok := calculate_tokensPerTask dateVal hne
  refine ⟨?_, ?_, ?_, ?_, ?_, ?_⟩
  · simp [BenchmarkComparator.compare, hdur, JsNum.sub]
  · simp [BenchmarkComparator.compare, hsucc, JsNum.sub]
  · simp [BenchmarkComparator.compare, htok, JsNum.sub]
  · simp [BenchmarkComparator.compare, hsucc, JsNum.sub]
  · intro hnz
    rw [hdur] at hnz
    have hsum : (entries.map (fun m => m.outcome.duration)).sum ≠ 0 := by
      intro h
      exact hnz (by simp [h])
    simp [BenchmarkComparator.compare, hdur, JsNum.sub, JsNum.div, JsNum.mul, hsum, hne]
  · intro hnz
    rw [htok] at hnz
    have hsum : (entries.map (fun m => m.outcome.tokensUsed)).sum ≠ 0 := by
      intro h
      exact hnz (by simp [h])
    simp [BenchmarkComparator.compare, htok, JsNum.sub, JsNum.div, JsNum.mul, hsum, hne]

/-- C5 witness: a singleton with duration 1000 and 50 tokens compared
against itself gives zero improvements and zero percent improvements. -/
theorem compare_self_spec_witness :
    (BenchmarkComparator.compare sampleDateVal [sampleSkillEntry] [sampleSkillEntry]
      ).improvements.duration = JsNum.num 0 ∧
    (BenchmarkComparator.compare sampleDateVal [sampleSkillEntry] [sampleSkillEntry]
      ).percentImprovement.duration = JsNum.num 0 ∧
    (BenchmarkComparator.compare sampleDateVal [sampleSkillEntry] [sampleSkillEntry]
      ).percentImprovement.tokensPerTask = JsNum.num 0 :=
  ⟨(compare_self_spec sampleDateVal [sampleSkillEntry] (by simp)).1,
   (compare_self_spec sampleDateVal [sampleSkillEntry] (by simp)).2.2.2.2.1
     (by rw [calculate_averageDuration sampleDateVal (by simp)]
         simp [sampleSkillEntry]),
   (compare_self_spec sampleDateVal [sampleSkillEntry] (by simp)).2.2.2.2.2
     (by rw [calculate_tokensPerTask sampleDateVal (by simp)]
         simp [sampleSkillEntry])⟩

/-- C2: `load()` immediately after an append returns a collection whose
last element is the appended entry with only the store-assigned `id` and
`timestamp` replaced, and all ids in the collection remain pairwise
distinct.  The freshness of the generated id is a hypothesis modelling the
spec's `generateId()` (the function is called but not defined anywhere in
the repository; the spec requires a freshly generated unique id). -/
theorem log_then_load_spec (store : UsageLogStore) (entry : UsageLog)
    (newId now savedAt : String)
    (hnodup : (store.entries.map (fun e => e.id)).Nodup)
    (hfresh : newId ∉ store.entries.map (fun e => e.id)) :
    (UsageLogger.log store entry newId now savedAt).entries.getLast?
      = some { entry with id := newId, timestamp := now } ∧
    ((UsageLogger.log store entry newId now savedAt).entries.map (fun e => e.id)).Nodup := by
  constructor
  · simp [UsageLogger.log]
  · simp [UsageLogger.log, List.nodup_append, hnodup, hfresh]

/-- C2 witness: appending a concrete entry to a two-entry store with a
fresh id gives that entry (restamped) as the last element and keeps the
ids distinct. -/
theorem log_then_load_spec_witness :
    (UsageLogger.log sampleStore zeroOutcomeEntry "fresh-id" "2025-01-12T11:00:00Z"
        "2025-01-12T11:00:00Z").entries.getLast?
      = some { zeroOutcomeEntry with id := "fresh-id", timestamp := "2025-01-12T11:00:00Z" } ∧
    ((UsageLogger.log sampleStore zeroOutcomeEntry "fresh-id" "2025-01-12T11:00:00Z"
        "2025-01-12T11:00:00Z").entries.map (fun e => e.id)).Nodup :=
  log_then_load_spec sampleStore zeroOutcomeEntry "fresh-id" "2025-01-12T11:00:00Z"
    "2025-01-12T11:00:00Z" (by decide) (by decide)

/-- C3: `query` is a pure filter over the stored entries — with no filters
supplied it returns the full sequence; its result is an in-order
subsequence of the entries; membership in the result is exactly
membership in the store plus satisfaction of every supplied filter;
when nothing satisfies the filters the result is the empty sequence (not
an error — `query` is total); and re-querying its own output with the same
filters leaves it unchanged. -/
theorem query_spec (dateVal : String → ℚ) (store : UsageLogStore) (filters : LogFilters) :
    UsageLogger.query dateVal store ⟨none, none, none, none⟩ = store.entries ∧
    (UsageLogger.query dateVal store filters).Sublist store.entries ∧
    (∀ e, e ∈ UsageLogger.query dateVal store filters ↔
        e ∈ store.entries ∧ satisfiesFilters dateVal filters e) ∧
    ((∀ e ∈ store.entries, ¬ satisfiesFilters dateVal filters e) →
        UsageLogger.query dateVal store filters = []) ∧
    (∀ md, UsageLogger.query dateVal ⟨UsageLogger.query dateVal store filters, md⟩ filters
        = UsageLogger.query dateVal store filters) := by
  refine ⟨?_, List.filter_sublist _, ?_, ?_, ?_⟩
  · simp [UsageLogger.query, UsageLogger.matchesFilters, Option.any]
  · intro e
    simp [UsageLogger.query, List.mem_filter, matchesFilters_iff]
  · intro h
    refine List.filter_eq_nil_iff.mpr ?_
    intro e he
    simpa [matchesFilters_iff] using h e he
  · intro md
    refine List.filter_eq_self.mpr ?_
    intro e he
    exact @List.of_mem_filter _
      (fun entry => UsageLogger.matchesFilters dateVal entry filters) e store.entries he

/-- C3 witness: a filter on an agent name not present in the store matches
nothing and yields the empty sequence. -/
theorem query_spec_witness :
    UsageLogger.query sampleDateVal sampleStore ⟨some "nobody", none, none, none⟩ = [] :=
  (query_spec sampleDateVal sampleStore ⟨some "nobody", none, none, none⟩).2.2.2.1
    (by
      intro e he
      fin_cases he <;>
        · rintro ⟨h1, -, -, -⟩
          exact absurd (h1 "nobody" rfl) (by decide))

/-- C4 (code-bug record): as written, `analyzePatterns` returns the empty
pattern list for every input — it iterates `Object.entries` of the `Map`
returned by `groupBySkill`, an enumeration that is always empty — so the
frequency sum is 0 whenever skill entries exist, refuting the claimed
equality on the code.  Under the evident intended iteration (the one
`getTopSkills` performs on its own map), the claim holds: the result
depends only on the skill-typed entries, the sum of `frequency` equals
the number of skill-typed entries, and the output is sorted by
`frequency` in descending order. -/
theorem analyzePatterns_bug_and_intent (metrics : List UsageLog) :
    UsageAnalyzer.analyzePatterns metrics = [] ∧
    UsageAnalyzer.analyzePatternsIntended metrics
      = UsageAnalyzer.analyzePatternsIntended
          (metrics.filter (fun m => m.invocation.type = InvocationType.skill)) ∧
    ((UsageAnalyzer.analyzePatternsIntended metrics).map (fun p => p.frequency)).sum
      = (metrics.filter (fun m => m.invocation.type = InvocationType.skill)).length ∧
    (UsageAnalyzer.analyzePatternsIntended metrics).Pairwise
      (fun a b => b.frequency ≤ a.frequency) := by
  refine ⟨?_, ?_, ?_, ?_⟩
  · simp [UsageAnalyzer.analyzePatterns, UsageAnalyzer.objectEntriesOfMap]
  · unfold UsageAnalyzer.analyzePatternsIntended UsageAnalyzer.groupBySkill
    rw [groupBySkill_filter_skill]
  · have hperm :
        (UsageAnalyzer.analyzePatternsIntended metrics).Perm
          ((UsageAnalyzer.groupBySkill metrics).map
            (fun g => UsageAnalyzer.mkPattern g.1 g.2)) :=
      List.mergeSort_perm _ _
    have hsum :
        ((UsageAnalyzer.analyzePatternsIntended metrics).map (fun p => p.frequency)).sum
          = (((UsageAnalyzer.groupBySkill metrics).map
              (fun g => UsageAnalyzer.mkPattern g.1 g.2)).map (fun p => p.frequency)).sum :=
      (hperm.map _).sum_eq
    rw [hsum]
    have hmap :
        ((UsageAnalyzer.groupBySkill metrics).map
            (fun g => UsageAnalyzer.mkPattern g.1 g.2)).map (fun p => p.frequency)
          = (UsageAnalyzer.groupBySkill metrics).map (fun g => g.2.length) := by
      simp [List.map_map, UsageAnalyzer.mkPattern, Function.comp]
    rw [hmap]
    simpa [UsageAnalyzer.groupBySkill] using foldl_groupStep_size metrics []
  · have htrans :
        ∀ a b c : UsagePattern, (fun a b => decide (b.frequency ≤ a.frequency)) a b = true →
          (fun a b => decide (b.frequency ≤ a.frequency)) b c = true →
          (fun a b => decide (b.frequency ≤ a.frequency)) a c = true := by
      intro a b c hab hbc
      simp only [decide_eq_true_iff] at *
      omega
    have htotal :
        ∀ a b : UsagePattern, ((fun a b => decide (b.frequency ≤ a.frequency)) a b
          || (fun a b => decide (b.frequency ≤ a.frequency)) b a) = true := by
      intro a b
      simp only [Bool.or_eq_true, decide_eq_true_iff]
      omega
    have h := List.sorted_mergeSort htrans htotal
      ((UsageAnalyzer.groupBySkill metrics).map (fun g => UsageAnalyzer.mkPattern g.1 g.2))
    exact h.imp (fun hab => by simpa using hab)

/-- C9 (code-bug record): as written, `analyzePatterns` never produces a
pattern at all (the `Object.entries`-of-a-`Map` slip makes its result the
empty list on every input), so no `timeOfDay` bucket is ever derived.
Under the evident intended iteration, every produced pattern's
`timeOfDay` is the bucket of the hour-of-day of the first entry of its
skill group, and the bucketing — faithful source code in `getTimeOfDay` —
maps `[5,12)` to morning, `[12,17)` to afternoon, `[17,21)` to evening
and every other hour to night. -/
theorem timeOfDay_bug_and_intent (metrics : List UsageLog) :
    UsageAnalyzer.analyzePatterns metrics = [] ∧
    (UsageAnalyzer.analyzePatternsIntended metrics).Forall
      (fun p => ∃ l, (p.skill, l) ∈ UsageAnalyzer.groupBySkill metrics ∧ l ≠ [] ∧
        p.timeOfDay = UsageAnalyzer.timeOfDayOf (l.headD default).timestamp) ∧
    (∀ h : Int,
      (UsageAnalyzer.getTimeOfDay h = TimeOfDay.morning ↔ 5 ≤ h ∧ h < 12) ∧
      (UsageAnalyzer.getTimeOfDay h = TimeOfDay.afternoon ↔ 12 ≤ h ∧ h < 17) ∧
      (UsageAnalyzer.getTimeOfDay h = TimeOfDay.evening ↔ 17 ≤ h ∧ h < 21) ∧
      (UsageAnalyzer.getTimeOfDay h = TimeOfDay.night ↔ h < 5 ∨ 21 ≤ h)) := by
  refine ⟨?_, ?_, ?_⟩
  · simp [UsageAnalyzer.analyzePatterns, UsageAnalyzer.objectEntriesOfMap]
  · rw [List.forall_iff_forall_mem]
    intro p hp
    have hp' : p ∈ (UsageAnalyzer.groupBySkill metrics).map
        (fun g => UsageAnalyzer.mkPattern g.1 g.2) :=
      ((List.mergeSort_perm _ _).mem_iff).mp hp
    obtain ⟨g, hg, rfl⟩ := List.mem_map.mp hp'
    refine ⟨g.2, ?_, groupBySkill_ne_nil metrics g hg, ?_⟩
    · simpa [UsageAnalyzer.mkPattern] using hg
    · simp [UsageAnalyzer.mkPattern]
  · intro h
    unfold UsageAnalyzer.getTimeOfDay
    split_ifs with h1 h2 h3 <;> refine ⟨?_, ?_, ?_, ?_⟩ <;> simp <;> omega

/-- C7 (code-bug record): a healthy day — 95% success rate, 3.5 s average
duration, 12.5 invocations per hour, top skill analyze-codebase ×15 —
yields no insight other than the most-used-skill one: `generateInsights`
implements only the `< 80`, `> 30000` and `< 5` branches, although the
module's own documentation and example output also promise a positive
insight for success ≥ 90, a fast insight for duration < 5000 and a high
insight for invocations/hour > 10. -/
theorem generateInsights_healthy_run :
    ReportGenerator.generateInsights healthyMetrics [("analyze-codebase", 15)]
      = some [Insight.mostUsedSkill "analyze-codebase" 15] := by
  norm_num [ReportGenerator.generateInsights, healthyMetrics, JsNum.lt]

/-- C8 counterexample: on a day with zero skill invocations,
`generateInsights` reads `topSkills[0].skill` with `topSkills` empty and
fails (TypeError on `undefined`) instead of omitting the insight and
succeeding. -/
theorem generateInsights_zero_skills_counterexample :
    ReportGenerator.generateInsights healthyMetrics
      (ReportGenerator.getTopSkills [sampleCommandEntry] 5) = none := by
  simp [ReportGenerator.getTopSkills, ReportGenerator.countStep,
    ReportGenerator.generateInsights, sampleCommandEntry]

/-- C8 (amended): when at least one skill invocation exists in the day's
entries, the insight list ends with a most-used-skill insight naming the
head of the top-skills list and its count; when there are zero skill
invocations, `generateInsights` does not succeed — the read of
`topSkills[0].skill` fails (modelled as `none`) rather than omitting the
insight. -/
theorem mostUsedSkill_insight_spec (m : ProductivityMetrics) (metrics : List UsageLog) :
    ((∃ e ∈ metrics, e.invocation.type = InvocationType.skill) →
      ∃ top rest pre,
        ReportGenerator.getTopSkills metrics 5 = top :: rest ∧
        ReportGenerator.generateInsights m (ReportGenerator.getTopSkills metrics 5)
          = some (pre ++ [Insight.mostUsedSkill top.1 top.2])) ∧
    ((∀ e ∈ metrics, e.invocation.type ≠ InvocationType.skill) →
      ReportGenerator.generateInsights m (ReportGenerator.getTopSkills metrics 5) = none) := by
  constructor
  · intro hex
    have hcounts : metrics.foldl ReportGenerator.countStep [] ≠ [] :=
      counts_ne_nil_of_skill metrics [] hex
    have hlen : 0 < ((metrics.foldl ReportGenerator.countStep []).mergeSort
        (fun a b => decide (b.2 ≤ a.2))).length := by
      rw [(List.mergeSort_perm _ _).length_eq]
      exact List.length_pos.mpr hcounts
    have htop : ReportGenerator.getTopSkills metrics 5 ≠ [] := by
      unfold ReportGenerator.getTopSkills
      intro hnil
      have h5 := congrArg List.length hnil
      rw [List.length_take] at h5
      simp only [List.length_nil] at h5
      omega
    obtain ⟨top, rest, hcons⟩ := List.exists_cons_of_ne_nil htop
    refine ⟨top, rest,
      (if m.successRate.lt (JsNum.num 80)
        then [Insight.lowSuccessRate m.successRate] else []) ++
      (if (JsNum.num 30000).lt m.averageDuration
        then [Insight.highAverageDuration m.averageDuration] else []) ++
      (if m.invocationsPerHour.lt (JsNum.num 5)
        then [Insight.lowInvocationsPerHour m.invocationsPerHour] else []),
      hcons, ?_⟩
    rw [hcons]
    simp [ReportGenerator.generateInsights]
  · intro hall
    have hcounts : metrics.foldl ReportGenerator.countStep [] = [] :=
      counts_nil_of_no_skill metrics [] hall
    simp [ReportGenerator.getTopSkills, hcounts, ReportGenerator.generateInsights]

/-- C8 witness: one skill invocation suffices for the most-used-skill
insight to be appended. -/
theorem mostUsedSkill_insight_spec_witness :
    ∃ top rest pre,
      ReportGenerator.getTopSkills [sampleSkillEntry] 5 = top :: rest ∧
      ReportGenerator.generateInsights healthyMetrics
          (ReportGenerator.getTopSkills [sampleSkillEntry] 5)
        = some (pre ++ [Insight.mostUsedSkill top.1 top.2]) :=
  (mostUsedSkill_insight_spec healthyMetrics [sampleSkillEntry]).1
    ⟨sampleSkillEntry, by simp, rfl⟩

end Vendatta
